import Mathlib

/-!
Verification of the replication DLQ handler (`service/history/replication`,
file `dlq_handler.go` in the sources).

The handler is embedded shallowly: each external collaborator (execution
store, remote admin client, task executor) is a field of function type, and
every operation returns, next to its Go result, the list of collaborator
calls it issued, in order (`Event`).  Errors are modelled with `Except`:
the Go convention `(nil, nil, nil, err)` becomes `.error err`.
-/

namespace DLQ

/-- Opaque pagination cursor (`[]byte` in Go; `nil` and empty coincide). -/
abbrev PageToken := List Nat

/-- `defaultBeginningMessageID = -1`, the beginning-of-queue sentinel. -/
def defaultBeginningMessageID : Int := -1

/-- Error taxonomy: `errInvalidCluster` is the distinguished bad-request
error; the other constructors carry opaque collaborator errors which the
handler propagates verbatim. -/
inductive Err where
  | invalidCluster : Err
  | persistence : Nat → Err
  | hydration : Nat → Err
  | execution : Nat → Err
deriving DecidableEq, Repr

/-- `persistence.ReplicationTaskInfo`: the lightweight DLQ entry as stored. -/
structure PersistedReplicationTaskInfo where
  domainID : String
  workflowID : String
  runID : String
  taskType : Int
  taskID : Int
  version : Int
  firstEventID : Int
  nextEventID : Int
  scheduledID : Int
deriving DecidableEq, Repr

/-- `types.ReplicationTaskInfo`: the lightweight entry shape returned to
callers and sent to the remote cluster for hydration. -/
structure ReplicationTaskInfo where
  domainID : String
  workflowID : String
  runID : String
  taskType : Int
  taskID : Int
  version : Int
  firstEventID : Int
  nextEventID : Int
  scheduledID : Int
deriving DecidableEq, Repr

/-- `types.ReplicationTask`: the hydrated payload.  Only `SourceTaskID` is
inspected by the handler; the rest of the payload is opaque. -/
structure ReplicationTask where
  sourceTaskID : Int
  payload : Nat
deriving DecidableEq, Repr

/-- Wrap an integer into the range of a signed 16-bit value, the effect of
the Go cast `int16(task.GetTaskType())`. -/
def int16cast (x : Int) : Int := (x + 2 ^ 15) % 2 ^ 16 - 2 ^ 15

/-- `persistence.GetReplicationTasksRequest`. -/
structure GetReplicationTasksRequest where
  readLevel : Int
  maxReadLevel : Int
  batchSize : Int
  nextPageToken : PageToken
deriving DecidableEq, Repr

/-- `persistence.GetReplicationTasksFromDLQRequest`. -/
structure GetReplicationTasksFromDLQRequest where
  sourceClusterName : String
  getReplicationTasksRequest : GetReplicationTasksRequest
deriving DecidableEq, Repr

/-- `persistence.GetReplicationTasksFromDLQResponse` (the part used). -/
structure GetReplicationTasksFromDLQResponse where
  tasks : List PersistedReplicationTaskInfo
  nextPageToken : PageToken
deriving DecidableEq, Repr

/-- `persistence.RangeDeleteReplicationTaskFromDLQRequest`. -/
structure RangeDeleteReplicationTaskFromDLQRequest where
  sourceClusterName : String
  exclusiveBeginTaskID : Int
  inclusiveEndTaskID : Int
deriving DecidableEq, Repr

/-- One collaborator call issued by the handler, recorded in order. -/
inductive Event where
  | storeRead : GetReplicationTasksFromDLQRequest → Event
  | hydrate : List ReplicationTaskInfo → Event
  | execute : String → ReplicationTask → Bool → Event
  | rangeDelete : RangeDeleteReplicationTaskFromDLQRequest → Event
deriving DecidableEq, Repr

/-- Is the event a range delete against the store? -/
def Event.isRangeDelete : Event → Bool
  | .rangeDelete _ => true
  | _ => false

/-- Is the event a task-executor invocation? -/
def Event.isExec : Event → Bool
  | .execute _ _ _ => true
  | _ => false

/-- Is the event a remote hydration call? -/
def Event.isHydrate : Event → Bool
  | .hydrate _ => true
  | _ => false

/-- Is the event a store read? -/
def Event.isStoreRead : Event → Bool
  | .storeRead _ => true
  | _ => false

/-- The remote admin client capability: `GetDLQReplicationMessages`. -/
structure RemoteAdminClient where
  getDLQReplicationMessages :
    List ReplicationTaskInfo → Except Err (List ReplicationTask)

/-- The per-cluster `TaskExecutor` capability: `execute(task, forced)`. -/
structure TaskExecutor where
  execute : ReplicationTask → Bool → Except Err Nat

/-- The slice of `shard.Context` the handler uses: the execution manager's
two DLQ calls and the client bean's remote admin client lookup. -/
structure Shard where
  getReplicationTasksFromDLQ :
    GetReplicationTasksFromDLQRequest → Except Err GetReplicationTasksFromDLQResponse
  remoteAdminClient : String → Option RemoteAdminClient
  rangeDeleteReplicationTaskFromDLQ :
    RangeDeleteReplicationTaskFromDLQRequest → Except Err Unit

/-- `dlqHandlerImpl`: the Go map `map[string]TaskExecutor` is embedded as an
association list looked up with `List.lookup`. -/
structure DLQHandlerImpl where
  taskExecutors : List (String × TaskExecutor)
  shard : Shard

/-- Boolean success test for `Except`. -/
def isOkE {ε α : Type} : Except ε α → Bool
  | .ok _ => true
  | .error _ => false

/-- `NewDLQHandler`: the Go constructor panics when handed a nil executor
map; the panic is modelled as the error branch, `none` as the nil map and
`some l` as a present (possibly empty) map. -/
def NewDLQHandler (sh : Shard)
    (taskExecutors : Option (List (String × TaskExecutor))) :
    Except String DLQHandlerImpl :=
  match taskExecutors with
  | none =>
    .error "Failed to initialize replication DLQ handler due to nil task executors"
  | some m => .ok { taskExecutors := m, shard := sh }

/-- Field-by-field copy from the persisted entry to the caller-facing
lightweight entry, with the `int16` cast on the task type. -/
def toReplicationTaskInfo (t : PersistedReplicationTaskInfo) : ReplicationTaskInfo :=
  { domainID := t.domainID
    workflowID := t.workflowID
    runID := t.runID
    taskType := int16cast t.taskType
    taskID := t.taskID
    version := t.version
    firstEventID := t.firstEventID
    nextEventID := t.nextEventID
    scheduledID := t.scheduledID }

/-- The store-read request built by `readMessagesWithAckLevel`. -/
def dlqReadRequest (sourceCluster : String) (lastMessageID : Int)
    (pageSize : Int) (pageToken : PageToken) : GetReplicationTasksFromDLQRequest :=
  { sourceClusterName := sourceCluster
    getReplicationTasksRequest :=
      { readLevel := defaultBeginningMessageID
        maxReadLevel := lastMessageID
        batchSize := pageSize
        nextPageToken := pageToken } }

/-- `readMessagesWithAckLevel`: store read, remote-client presence check,
then one hydration call when the page is non-empty. -/
def readMessagesWithAckLevel (r : DLQHandlerImpl) (sourceCluster : String)
    (lastMessageID : Int) (pageSize : Int) (pageToken : PageToken) :
    Except Err (List ReplicationTask × List ReplicationTaskInfo × PageToken) × List Event :=
  let req := dlqReadRequest sourceCluster lastMessageID pageSize pageToken
  match r.shard.getReplicationTasksFromDLQ req with
  | .error e => (.error e, [.storeRead req])
  | .ok resp =>
    match r.shard.remoteAdminClient sourceCluster with
    | none => (.error .invalidCluster, [.storeRead req])
    | some client =>
      let taskInfo := resp.tasks.map toReplicationTaskInfo
      if taskInfo.length > 0 then
        match client.getDLQReplicationMessages taskInfo with
        | .error e => (.error e, [.storeRead req, .hydrate taskInfo])
        | .ok hydrated =>
          (.ok (hydrated, taskInfo, resp.nextPageToken),
           [.storeRead req, .hydrate taskInfo])
      else
        (.ok ([], taskInfo, resp.nextPageToken), [.storeRead req])

/-- `ReadMessages` delegates to `readMessagesWithAckLevel`. -/
def ReadMessages (r : DLQHandlerImpl) (sourceCluster : String)
    (lastMessageID : Int) (pageSize : Int) (pageToken : PageToken) :
    Except Err (List ReplicationTask × List ReplicationTaskInfo × PageToken) × List Event :=
  readMessagesWithAckLevel r sourceCluster lastMessageID pageSize pageToken

/-- `PurgeMessages`: a single range delete from the beginning sentinel
through `lastMessageID`. -/
def PurgeMessages (r : DLQHandlerImpl) (sourceCluster : String)
    (lastMessageID : Int) : Except Err Unit × List Event :=
  let req : RangeDeleteReplicationTaskFromDLQRequest :=
    { sourceClusterName := sourceCluster
      exclusiveBeginTaskID := defaultBeginningMessageID
      inclusiveEndTaskID := lastMessageID }
  match r.shard.rangeDeleteReplicationTaskFromDLQ req with
  | .error e => (.error e, [.rangeDelete req])
  | .ok _ => (.ok (), [.rangeDelete req])

/-- The Go loop `for _, task := range tasks` populating
`map[int64]*types.ReplicationTask`; later entries overwrite earlier ones. -/
def buildTaskMap (tasks : List ReplicationTask) : Int → Option ReplicationTask :=
  tasks.foldl (fun m task => Function.update m task.sourceTaskID (some task))
    (fun _ => none)

/-- The Go loop `for _, raw := range rawTasks` in `MergeMessages`: execute
the matched hydrated task (forced), abort on executor error, and track the
running maximum task id.  Returns the final tracked id and the executor
calls issued. -/
def mergeLoop (texec : TaskExecutor) (sourceCluster : String)
    (replicationTasks : Int → Option ReplicationTask)
    (rawTasks : List ReplicationTaskInfo) (lastMessageID : Int) :
    Except Err Int × List Event :=
  match rawTasks with
  | [] => (.ok lastMessageID, [])
  | raw :: rest =>
    match replicationTasks raw.taskID with
    | some task =>
      match texec.execute task true with
      | .error e => (.error e, [.execute sourceCluster task true])
      | .ok _ =>
        let lm := if lastMessageID < raw.taskID then raw.taskID else lastMessageID
        let res := mergeLoop texec sourceCluster replicationTasks rest lm
        (res.fst, .execute sourceCluster task true :: res.snd)
    | none =>
      let lm := if lastMessageID < raw.taskID then raw.taskID else lastMessageID
      mergeLoop texec sourceCluster replicationTasks rest lm

/-- `MergeMessages`: executor-registration check, read-and-hydrate, replay
loop, then one range purge through the tracked maximum task id. -/
def MergeMessages (r : DLQHandlerImpl) (sourceCluster : String)
    (lastMessageID : Int) (pageSize : Int) (pageToken : PageToken) :
    Except Err PageToken × List Event :=
  match r.taskExecutors.lookup sourceCluster with
  | none => (.error .invalidCluster, [])
  | some texec =>
    let read := readMessagesWithAckLevel r sourceCluster lastMessageID pageSize pageToken
    match read.fst with
    | .error e => (.error e, read.snd)
    | .ok (tasks, rawTasks, token) =>
      let replicationTasks := buildTaskMap tasks
      let loop := mergeLoop texec sourceCluster replicationTasks rawTasks
        defaultBeginningMessageID
      match loop.fst with
      | .error e => (.error e, read.snd ++ loop.snd)
      | .ok lastID =>
        let delReq : RangeDeleteReplicationTaskFromDLQRequest :=
          { sourceClusterName := sourceCluster
            exclusiveBeginTaskID := defaultBeginningMessageID
            inclusiveEndTaskID := lastID }
        match r.shard.rangeDeleteReplicationTaskFromDLQ delReq with
        | .error e => (.error e, read.snd ++ loop.snd ++ [.rangeDelete delReq])
        | .ok _ => (.ok token, read.snd ++ loop.snd ++ [.rangeDelete delReq])

/-- Spec-side join: the hydrated task whose `SourceTaskID` equals `id`
(the first one, unique when source ids are distinct). -/
def hydratedTaskFor (tasks : List ReplicationTask) (id : Int) : Option ReplicationTask :=
  tasks.find? (fun t => t.sourceTaskID == id)

/-- The executor call that a lightweight entry gives rise to, if any. -/
def execEventFor (m : Int → Option ReplicationTask) (sourceCluster : String)
    (raw : ReplicationTaskInfo) : Option Event :=
  (m raw.taskID).map (fun t => Event.execute sourceCluster t true)

/-- One step of the running-maximum fold over a page. -/
def maxStep (a : Int) (raw : ReplicationTaskInfo) : Int :=
  if a < raw.taskID then raw.taskID else a

/-- Is the event an executor call whose task has the given source id? -/
def execSourceIs (id : Int) : Event → Bool
  | .execute _ t _ => t.sourceTaskID == id
  | _ => false

/-- The caller-facing lightweight entry for a concrete task id (see
`sampleEntry` below). -/
def westInfo (id : Int) : ReplicationTaskInfo :=
  { domainID := "domain"
    workflowID := "workflow"
    runID := "run"
    taskType := int16cast 0
    taskID := id
    version := 1
    firstEventID := 0
    nextEventID := 0
    scheduledID := 0 }

/-- One step of building the Go lookup map. -/
def taskMapInsert (m : Int → Option ReplicationTask) (task : ReplicationTask) :
    Int → Option ReplicationTask :=
  Function.update m task.sourceTaskID (some task)

/-- The range-delete request issued by a merge that tracked `lastID`. -/
def mergeDeleteRequest (c : String) (lastID : Int) :
    RangeDeleteReplicationTaskFromDLQRequest :=
  { sourceClusterName := c
    exclusiveBeginTaskID := defaultBeginningMessageID
    inclusiveEndTaskID := lastID }

/-- A concrete lightweight DLQ entry with the given task id. -/
def sampleEntry (id : Int) : PersistedReplicationTaskInfo :=
  { domainID := "domain"
    workflowID := "workflow"
    runID := "run"
    taskType := 0
    taskID := id
    version := 1
    firstEventID := 0
    nextEventID := 0
    scheduledID := 0 }

/-- A concrete hydrated task with the given source task id. -/
def sampleTask (id : Int) : ReplicationTask :=
  { sourceTaskID := id, payload := 0 }

/-- Store page holding entries 5, 7 and 9. -/
def westResp : GetReplicationTasksFromDLQResponse :=
  { tasks := [sampleEntry 5, sampleEntry 7, sampleEntry 9], nextPageToken := [1] }

/-- Remote cluster that hydrates only ids 5 and 9. -/
def westClient : RemoteAdminClient :=
  { getDLQReplicationMessages := fun _ => .ok [sampleTask 5, sampleTask 9] }

/-- Executor that applies every task successfully. -/
def okExecutor : TaskExecutor :=
  { execute := fun _ _ => .ok 0 }

/-- Executor that fails exactly on the task with source id 9. -/
def failOn9Executor : TaskExecutor :=
  { execute := fun t _ => if t.sourceTaskID = 9 then .error (.execution 1) else .ok 0 }

/-- Shard whose DLQ page is `westResp`, remote client registered for
cluster west, deletes succeeding. -/
def westShard : Shard :=
  { getReplicationTasksFromDLQ := fun _ => .ok westResp
    remoteAdminClient := fun c => if c = "west" then some westClient else none
    rangeDeleteReplicationTaskFromDLQ := fun _ => .ok () }

/-- Handler over `westShard` with a succeeding executor for west. -/
def westHandler : DLQHandlerImpl :=
  { taskExecutors := [("west", okExecutor)], shard := westShard }

/-- Handler over `westShard` whose executor fails on id 9. -/
def westHandlerFailing : DLQHandlerImpl :=
  { taskExecutors := [("west", failOn9Executor)], shard := westShard }

/-- Handler over `westShard` with no executor registered at all. -/
def noExecHandler : DLQHandlerImpl :=
  { taskExecutors := [], shard := westShard }

/-- Shard with a readable store but no remote admin client registered. -/
def noClientShard : Shard :=
  { getReplicationTasksFromDLQ := fun _ => .ok westResp
    remoteAdminClient := fun _ => none
    rangeDeleteReplicationTaskFromDLQ := fun _ => .ok () }

/-- Handler over `noClientShard`. -/
def noClientHandler : DLQHandlerImpl :=
  { taskExecutors := [("west", okExecutor)], shard := noClientShard }

/-- Remote client whose hydration call always fails. -/
def failingClient : RemoteAdminClient :=
  { getDLQReplicationMessages := fun _ => .error (.hydration 7) }

/-- Shard like `westShard` but with the failing remote client. -/
def failingHydrationShard : Shard :=
  { getReplicationTasksFromDLQ := fun _ => .ok westResp
    remoteAdminClient := fun c => if c = "west" then some failingClient else none
    rangeDeleteReplicationTaskFromDLQ := fun _ => .ok () }

/-- Handler over `failingHydrationShard`. -/
def failingHydrationHandler : DLQHandlerImpl :=
  { taskExecutors := [("west", okExecutor)], shard := failingHydrationShard }

/-- Store response for an empty page. -/
def emptyResp : GetReplicationTasksFromDLQResponse :=
  { tasks := [], nextPageToken := [2] }

/-- Shard whose DLQ page is empty. -/
def emptyPageShard : Shard :=
  { getReplicationTasksFromDLQ := fun _ => .ok emptyResp
    remoteAdminClient := fun c => if c = "west" then some westClient else none
    rangeDeleteReplicationTaskFromDLQ := fun _ => .ok () }

/-- Handler over `emptyPageShard`. -/
def emptyPageHandler : DLQHandlerImpl :=
  { taskExecutors := [("west", okExecutor)], shard := emptyPageShard }

theorem buildTaskMap_eq_foldl (tasks : List ReplicationTask) :
    buildTaskMap tasks = tasks.foldl taskMapInsert (fun _ => none) := rfl

theorem buildTaskMap_source_aux (tasks : List ReplicationTask)
    (m : Int → Option ReplicationTask) (id : Int)
    (hm : ∀ t, m id = some t → t.sourceTaskID = id) (t : ReplicationTask)
    (h : (tasks.foldl taskMapInsert m) id = some t) :
    t.sourceTaskID = id := by
  induction tasks generalizing m with
  | nil => exact hm t h
  | cons a as ih =>
    refine ih (taskMapInsert m a) ?_ h
    intro t' ht'
    unfold taskMapInsert at ht'
    by_cases hid : id = a.sourceTaskID
    · rw [hid, Function.update_same] at ht'
      cases ht'
      exact hid.symm
    · rw [Function.update_noteq hid] at ht'
      exact hm t' ht'

/-- A value stored in the Go lookup map always has the looked-up key as its
own `SourceTaskID`. -/
theorem buildTaskMap_source (tasks : List ReplicationTask) (id : Int)
    (t : ReplicationTask) (h : buildTaskMap tasks id = some t) :
    t.sourceTaskID = id :=
  buildTaskMap_source_aux tasks (fun _ => none) id (fun _ hx => by cases hx) t h

theorem buildTaskMap_find_aux (tasks : List ReplicationTask)
    (m : Int → Option ReplicationTask) (id : Int)
    (hd : tasks.Pairwise (fun a b => a.sourceTaskID ≠ b.sourceTaskID)) :
    (tasks.foldl taskMapInsert m) id
      = match tasks.find? (fun t => t.sourceTaskID == id) with
        | some t => some t
        | none => m id := by
  induction tasks generalizing m with
  | nil => simp
  | cons a as ih =>
    rcases List.pairwise_cons.mp hd with ⟨ha, has⟩
    rw [List.foldl_cons, ih _ has]
    by_cases h : a.sourceTaskID = id
    · have hnone : as.find? (fun t => t.sourceTaskID == id) = none := by
        rw [List.find?_eq_none]
        intro x hx
        simp only [beq_iff_eq]
        rw [← h]
        exact fun hc => ha x hx hc.symm
      rw [hnone]
      simp only [List.find?]
      rw [show (a.sourceTaskID == id) = true from beq_iff_eq.mpr h]
      unfold taskMapInsert
      rw [← h, Function.update_same]
    · simp only [List.find?]
      rw [show (a.sourceTaskID == id) = false by simp [h]]
      cases hfind : as.find? (fun t => t.sourceTaskID == id) with
      | some t => rfl
      | none =>
        unfold taskMapInsert
        exact Function.update_noteq (fun hc => h hc.symm) _ _

/-- When hydrated source ids are pairwise distinct (the spec invariant),
the Go map lookup coincides with the spec-side join `hydratedTaskFor`. -/
theorem buildTaskMap_eq_find (tasks : List ReplicationTask) (id : Int)
    (hd : tasks.Pairwise (fun a b => a.sourceTaskID ≠ b.sourceTaskID)) :
    buildTaskMap tasks id = hydratedTaskFor tasks id := by
  rw [buildTaskMap_eq_foldl, buildTaskMap_find_aux tasks (fun _ => none) id hd]
  unfold hydratedTaskFor
  cases tasks.find? (fun t => t.sourceTaskID == id) <;> rfl

/-- Success run of the merge loop: if every matched task executes
successfully, the loop returns the running maximum and issues exactly one
forced executor call per matched entry, in page order. -/
theorem mergeLoop_ok (texec : TaskExecutor) (c : String)
    (m : Int → Option ReplicationTask) (raws : List ReplicationTaskInfo) (acc : Int)
    (h : ∀ raw ∈ raws, ∀ t, m raw.taskID = some t → isOkE (texec.execute t true) = true) :
    mergeLoop texec c m raws acc =
      (.ok (raws.foldl maxStep acc), raws.filterMap (execEventFor m c)) := by
  induction raws generalizing acc with
  | nil => simp [mergeLoop]
  | cons raw rest ih =>
    have hrest : ∀ r ∈ rest, ∀ t, m r.taskID = some t →
        isOkE (texec.execute t true) = true :=
      fun r hr t ht => h r (List.mem_cons_of_mem _ hr) t ht
    cases hm : m raw.taskID with
    | none =>
      simp only [mergeLoop, hm, List.foldl_cons, List.filterMap_cons, execEventFor, hm,
        Option.map_none']
      exact ih _ hrest
    | some task =>
      have hok := h raw (List.mem_cons_self _ _) task hm
      cases he : texec.execute task true with
      | error e => rw [he] at hok; simp [isOkE] at hok
      | ok n =>
        simp only [mergeLoop, hm, he, List.foldl_cons, List.filterMap_cons, execEventFor,
          Option.map_some']
        rw [ih _ hrest]
        rfl

/-- Aborted run of the merge loop: the executor fails on entry `rawk` after
all earlier matched entries executed successfully.  The loop returns the
executor's error, its trace is exactly the executor calls for the matched
earlier entries followed by the failing call, and no other event occurs. -/
theorem mergeLoop_err (texec : TaskExecutor) (c : String)
    (m : Int → Option ReplicationTask) (pre : List ReplicationTaskInfo)
    (rawk : ReplicationTaskInfo) (post : List ReplicationTaskInfo) (acc : Int)
    (tk : ReplicationTask) (e : Err)
    (hpre : ∀ raw ∈ pre, ∀ t, m raw.taskID = some t → isOkE (texec.execute t true) = true)
    (hk : m rawk.taskID = some tk)
    (he : texec.execute tk true = .error e) :
    mergeLoop texec c m (pre ++ rawk :: post) acc =
      (.error e, pre.filterMap (execEventFor m c) ++ [.execute c tk true]) := by
  induction pre generalizing acc with
  | nil => simp [mergeLoop, hk, he]
  | cons a as ih =>
    have hrest : ∀ r ∈ as, ∀ t, m r.taskID = some t →
        isOkE (texec.execute t true) = true :=
      fun r hr t ht => hpre r (List.mem_cons_of_mem _ hr) t ht
    cases hm : m a.taskID with
    | none =>
      simp only [List.cons_append, mergeLoop, hm, List.filterMap_cons, execEventFor,
        Option.map_none']
      exact ih _ hrest
    | some task =>
      have hok := hpre a (List.mem_cons_self _ _) task hm
      cases hea : texec.execute task true with
      | error e' => rw [hea] at hok; simp [isOkE] at hok
      | ok n =>
        simp only [List.cons_append, mergeLoop, hm, hea, List.filterMap_cons, execEventFor,
          Option.map_some', List.append_eq]
        rw [ih _ hrest]

/-- Any run of the merge loop issues exactly the executor calls of some
prefix of the page, in order. -/
theorem mergeLoop_trace_shape (texec : TaskExecutor) (c : String)
    (m : Int → Option ReplicationTask) (raws : List ReplicationTaskInfo) (acc : Int) :
    ∃ Q R, raws = Q ++ R ∧
      (mergeLoop texec c m raws acc).snd = Q.filterMap (execEventFor m c) := by
  induction raws generalizing acc with
  | nil => exact ⟨[], [], rfl, rfl⟩
  | cons raw rest ih =>
    cases hm : m raw.taskID with
    | none =>
      obtain ⟨Q, R, hQR, htr⟩ := ih (if acc < raw.taskID then raw.taskID else acc)
      refine ⟨raw :: Q, R, by rw [List.cons_append, ← hQR], ?_⟩
      simp only [List.filterMap_cons, execEventFor, hm, Option.map_none']
      rw [← htr]
      simp [mergeLoop, hm]
    | some task =>
      cases he : texec.execute task true with
      | error e =>
        refine ⟨[raw], rest, rfl, ?_⟩
        simp [mergeLoop, hm, he, execEventFor]
      | ok n =>
        obtain ⟨Q, R, hQR, htr⟩ := ih (if acc < raw.taskID then raw.taskID else acc)
        refine ⟨raw :: Q, R, by rw [List.cons_append, ← hQR], ?_⟩
        simp only [List.filterMap_cons, execEventFor, hm, Option.map_some']
        rw [← htr]
        simp [mergeLoop, hm, he]

/-- The fold of `maxStep` over a page dominates its seed and every entry,
and is the seed or one of the entries. -/
theorem foldl_maxStep_spec (raws : List ReplicationTaskInfo) (acc : Int) :
    acc ≤ raws.foldl maxStep acc ∧
    (∀ raw ∈ raws, raw.taskID ≤ raws.foldl maxStep acc) ∧
    (raws.foldl maxStep acc = acc ∨ ∃ raw ∈ raws, raws.foldl maxStep acc = raw.taskID) := by
  induction raws generalizing acc with
  | nil => exact ⟨le_refl _, fun raw h => absurd h (List.not_mem_nil raw), Or.inl rfl⟩
  | cons raw rest ih =>
    obtain ⟨h1, h2, h3⟩ := ih (maxStep acc raw)
    have hstep : acc ≤ maxStep acc raw ∧ raw.taskID ≤ maxStep acc raw := by
      unfold maxStep
      by_cases h : acc < raw.taskID
      · rw [if_pos h]; exact ⟨le_of_lt h, le_refl _⟩
      · rw [if_neg h]; exact ⟨le_refl _, le_of_not_lt h⟩
    refine ⟨le_trans hstep.1 h1, ?_, ?_⟩
    · intro r hr
      rcases List.mem_cons.mp hr with hr | hr
      · rw [hr]; exact le_trans hstep.2 h1
      · exact h2 r hr
    · rcases h3 with h3 | ⟨r, hr, h3⟩
      · rw [List.foldl_cons, h3]
        unfold maxStep
        by_cases h : acc < raw.taskID
        · exact Or.inr ⟨raw, List.mem_cons_self _ _, by rw [if_pos h]⟩
        · exact Or.inl (by rw [if_neg h])
      · exact Or.inr ⟨r, List.mem_cons_of_mem _ hr, h3⟩

/-- The read phase issues no executor call and no range delete. -/
theorem read_trace_events (r : DLQHandlerImpl) (c : String) (l : Int) (p : Int)
    (tok : PageToken) :
    (readMessagesWithAckLevel r c l p tok).snd.filter Event.isExec = [] ∧
    (readMessagesWithAckLevel r c l p tok).snd.filter Event.isRangeDelete = [] := by
  cases hstore : r.shard.getReplicationTasksFromDLQ (dlqReadRequest c l p tok) with
  | error e =>
    simp [readMessagesWithAckLevel, hstore, Event.isExec, Event.isRangeDelete]
  | ok resp =>
    cases hclient : r.shard.remoteAdminClient c with
    | none =>
      simp [readMessagesWithAckLevel, hstore, hclient, Event.isExec, Event.isRangeDelete]
    | some client =>
      by_cases hlen : 0 < resp.tasks.length
      · cases hhyd : client.getDLQReplicationMessages (resp.tasks.map toReplicationTaskInfo) with
        | error e =>
          simp [readMessagesWithAckLevel, hstore, hclient, hlen, hhyd, Event.isExec,
            Event.isRangeDelete]
        | ok hy =>
          simp [readMessagesWithAckLevel, hstore, hclient, hlen, hhyd, Event.isExec,
            Event.isRangeDelete]
      · simp [readMessagesWithAckLevel, hstore, hclient, hlen, Event.isExec,
          Event.isRangeDelete]

/-- `MergeMessages` when the replay loop completes: the purge request goes
out after the read and loop events, and the store's answer decides the
result. -/
theorem mergeMessages_loop_ok (r : DLQHandlerImpl) (c : String) (l p : Int)
    (tok : PageToken) (texec : TaskExecutor) (tasks : List ReplicationTask)
    (raws : List ReplicationTaskInfo) (token : PageToken) (lastID : Int)
    (loopTr : List Event)
    (hexec : r.taskExecutors.lookup c = some texec)
    (hread : (readMessagesWithAckLevel r c l p tok).fst = .ok (tasks, raws, token))
    (hloop : mergeLoop texec c (buildTaskMap tasks) raws defaultBeginningMessageID
      = (.ok lastID, loopTr)) :
    MergeMessages r c l p tok =
      (match r.shard.rangeDeleteReplicationTaskFromDLQ (mergeDeleteRequest c lastID) with
        | .error e => .error e
        | .ok _ => .ok token,
       (readMessagesWithAckLevel r c l p tok).snd ++ loopTr
         ++ [.rangeDelete (mergeDeleteRequest c lastID)]) := by
  cases hdel : r.shard.rangeDeleteReplicationTaskFromDLQ (mergeDeleteRequest c lastID) with
  | error e =>
    unfold mergeDeleteRequest at hdel
    simp only [MergeMessages, hexec, hread, hloop, mergeDeleteRequest, hdel]
  | ok u =>
    cases u
    unfold mergeDeleteRequest at hdel
    simp only [MergeMessages, hexec, hread, hloop, mergeDeleteRequest, hdel]

/-- `MergeMessages` when the replay loop aborts with an executor error: the
error is returned and the trace stops at the loop events (no purge). -/
theorem mergeMessages_loop_err (r : DLQHandlerImpl) (c : String) (l p : Int)
    (tok : PageToken) (texec : TaskExecutor) (tasks : List ReplicationTask)
    (raws : List ReplicationTaskInfo) (token : PageToken) (e : Err)
    (loopTr : List Event)
    (hexec : r.taskExecutors.lookup c = some texec)
    (hread : (readMessagesWithAckLevel r c l p tok).fst = .ok (tasks, raws, token))
    (hloop : mergeLoop texec c (buildTaskMap tasks) raws defaultBeginningMessageID
      = (.error e, loopTr)) :
    MergeMessages r c l p tok =
      (.error e, (readMessagesWithAckLevel r c l p tok).snd ++ loopTr) := by
  simp only [MergeMessages, hexec, hread, hloop]

/-- Every event produced by `execEventFor` is a forced executor call for a
matched entry. -/
theorem mem_filterMap_execEventFor (m : Int → Option ReplicationTask) (c : String)
    (raws : List ReplicationTaskInfo) (ev : Event)
    (h : ev ∈ raws.filterMap (execEventFor m c)) :
    ∃ raw ∈ raws, ∃ t, m raw.taskID = some t ∧ ev = Event.execute c t true := by
  rcases List.mem_filterMap.mp h with ⟨raw, hraw, hev⟩
  unfold execEventFor at hev
  cases hm : m raw.taskID with
  | none => rw [hm] at hev; cases hev
  | some t =>
    rw [hm] at hev
    cases hev
    exact ⟨raw, hraw, t, hm, rfl⟩

/-- Claim C3: when no task executor is registered for the source cluster,
`MergeMessages` fails with the invalid-cluster error and its trace is
empty, so the check precedes any store read, hydration, executor
invocation or delete. -/
theorem merge_invalid_cluster_checked_first (r : DLQHandlerImpl) (c : String)
    (l p : Int) (tok : PageToken)
    (h : r.taskExecutors.lookup c = none) :
    MergeMessages r c l p tok = (.error .invalidCluster, []) := by
  simp [MergeMessages, h]

theorem merge_invalid_cluster_checked_first_witness :
    noExecHandler.taskExecutors.lookup "west" = none ∧
    MergeMessages noExecHandler "west" 9 10 [] = (.error .invalidCluster, []) :=
  ⟨rfl, merge_invalid_cluster_checked_first noExecHandler "west" 9 10 [] rfl⟩

/-- Claim C7: `PurgeMessages` issues exactly one range delete, over
`(defaultBeginningMessageID, lastMessageID]` of the given cluster, with no
hydration and no executor invocation; it fails exactly when the store
delete fails, propagating the store's error. -/
theorem purge_issues_single_range_delete (r : DLQHandlerImpl) (c : String) (l : Int) :
    (PurgeMessages r c l).snd = [Event.rangeDelete (mergeDeleteRequest c l)] ∧
    (r.shard.rangeDeleteReplicationTaskFromDLQ (mergeDeleteRequest c l) = .ok () →
      (PurgeMessages r c l).fst = .ok ()) ∧
    (∀ e, r.shard.rangeDeleteReplicationTaskFromDLQ (mergeDeleteRequest c l) = .error e →
      (PurgeMessages r c l).fst = .error e) := by
  cases hdel : r.shard.rangeDeleteReplicationTaskFromDLQ (mergeDeleteRequest c l) with
  | error e =>
    unfold mergeDeleteRequest at hdel
    refine ⟨?_, ?_, ?_⟩ <;>
      simp [PurgeMessages, mergeDeleteRequest, hdel]
  | ok u =>
    cases u
    unfold mergeDeleteRequest at hdel
    refine ⟨?_, ?_, ?_⟩ <;>
      simp [PurgeMessages, mergeDeleteRequest, hdel]

theorem purge_issues_single_range_delete_witness :
    (PurgeMessages westHandler "west" 9).fst = .ok () ∧
    (PurgeMessages westHandler "west" 9).snd
      = [Event.rangeDelete (mergeDeleteRequest "west" 9)] :=
  ⟨(purge_issues_single_range_delete westHandler "west" 9).2.1 rfl,
   (purge_issues_single_range_delete westHandler "west" 9).1⟩

/-- Claim C8, counterexample: constructing the handler with an
empty-but-present executor mapping is accepted, refuting the claim that an
absent or empty mapping is always rejected at construction time. -/
theorem construction_empty_map_accepted :
    isOkE (NewDLQHandler westShard (some [])) = true := rfl

/-- Claim C8, amended: only a nil (absent) executor mapping is rejected at
construction time; an empty-but-present mapping is accepted. -/
theorem construction_rejects_only_nil_map (sh : Shard) :
    isOkE (NewDLQHandler sh none) = false ∧
    isOkE (NewDLQHandler sh (some [])) = true :=
  ⟨rfl, rfl⟩

/-- Claim C4, counterexample: with no remote admin client registered and a
store read that succeeds, `ReadMessages` does return the invalid-cluster
error, but only after performing the store read — the trace contains the
store I/O, refuting the fail-fast-before-I/O claim. -/
theorem read_store_io_precedes_cluster_check :
    (ReadMessages noClientHandler "west" 9 10 []).fst = .error .invalidCluster ∧
    (ReadMessages noClientHandler "west" 9 10 []).snd
      = [Event.storeRead (dlqReadRequest "west" 9 10 [])] :=
  ⟨rfl, rfl⟩

/-- Claim C4, amended: when no remote admin client is registered for the
cluster and the store read succeeds, `ReadMessages` returns the
invalid-cluster error with exactly one store read already performed (the
client check happens after the store read, not before). -/
theorem read_invalid_cluster_after_store_read (r : DLQHandlerImpl) (c : String)
    (l p : Int) (tok : PageToken) (resp : GetReplicationTasksFromDLQResponse)
    (hstore : r.shard.getReplicationTasksFromDLQ (dlqReadRequest c l p tok) = .ok resp)
    (hclient : r.shard.remoteAdminClient c = none) :
    ReadMessages r c l p tok
      = (.error .invalidCluster, [Event.storeRead (dlqReadRequest c l p tok)]) := by
  simp [ReadMessages, readMessagesWithAckLevel, hstore, hclient]

theorem read_invalid_cluster_after_store_read_witness :
    noClientHandler.shard.getReplicationTasksFromDLQ (dlqReadRequest "west" 9 10 [])
      = .ok westResp ∧
    noClientHandler.shard.remoteAdminClient "west" = none ∧
    ReadMessages noClientHandler "west" 9 10 []
      = (.error .invalidCluster, [Event.storeRead (dlqReadRequest "west" 9 10 [])]) :=
  ⟨rfl, rfl,
   read_invalid_cluster_after_store_read noClientHandler "west" 9 10 [] westResp rfl rfl⟩

/-- Claim C9: a merge whose read phase succeeds with an empty page still
issues a range delete whose inclusive upper bound is the beginning
sentinel `-1`, and, when that delete succeeds, returns the store's next
page token without error. -/
theorem merge_empty_page_purges_sentinel (r : DLQHandlerImpl) (c : String)
    (l p : Int) (tok : PageToken) (texec : TaskExecutor)
    (resp : GetReplicationTasksFromDLQResponse) (client : RemoteAdminClient)
    (hexec : r.taskExecutors.lookup c = some texec)
    (hstore : r.shard.getReplicationTasksFromDLQ (dlqReadRequest c l p tok) = .ok resp)
    (htasks : resp.tasks = [])
    (hclient : r.shard.remoteAdminClient c = some client)
    (hdel : r.shard.rangeDeleteReplicationTaskFromDLQ (mergeDeleteRequest c (-1)) = .ok ()) :
    MergeMessages r c l p tok
      = (.ok resp.nextPageToken,
         [Event.storeRead (dlqReadRequest c l p tok),
          Event.rangeDelete (mergeDeleteRequest c (-1))]) := by
  have hread : (readMessagesWithAckLevel r c l p tok).fst
      = .ok ([], [], resp.nextPageToken) := by
    simp [readMessagesWithAckLevel, hstore, hclient, htasks]
  have hreadtr : (readMessagesWithAckLevel r c l p tok).snd
      = [Event.storeRead (dlqReadRequest c l p tok)] := by
    simp [readMessagesWithAckLevel, hstore, hclient, htasks]
  have hloop : mergeLoop texec c (buildTaskMap []) [] defaultBeginningMessageID
      = (.ok (-1), []) := rfl
  have h := mergeMessages_loop_ok r c l p tok texec [] [] resp.nextPageToken (-1) []
    hexec hread hloop
  rw [h, hdel, hreadtr]
  rfl

theorem merge_empty_page_purges_sentinel_witness :
    MergeMessages emptyPageHandler "west" 9 10 []
      = (.ok emptyResp.nextPageToken,
         [Event.storeRead (dlqReadRequest "west" 9 10 []),
          Event.rangeDelete (mergeDeleteRequest "west" (-1))]) :=
  merge_empty_page_purges_sentinel emptyPageHandler "west" 9 10 [] okExecutor
    emptyResp westClient rfl rfl rfl rfl rfl

/-- Claim C6: with a registered remote client, a `ReadMessages` call whose
store read returns an empty page makes no hydration call and returns the
empty task and entry lists with the store's next page token; on a
non-empty page exactly one hydration call is made, carrying the full batch
of lightweight entries. -/
theorem read_hydrates_iff_page_nonempty (r : DLQHandlerImpl) (c : String)
    (l p : Int) (tok : PageToken) (resp : GetReplicationTasksFromDLQResponse)
    (client : RemoteAdminClient)
    (hstore : r.shard.getReplicationTasksFromDLQ (dlqReadRequest c l p tok) = .ok resp)
    (hclient : r.shard.remoteAdminClient c = some client) :
    (resp.tasks = [] →
      ReadMessages r c l p tok
        = (.ok ([], [], resp.nextPageToken),
           [Event.storeRead (dlqReadRequest c l p tok)])) ∧
    (resp.tasks ≠ [] →
      (ReadMessages r c l p tok).snd.filter Event.isHydrate
        = [Event.hydrate (resp.tasks.map toReplicationTaskInfo)]) := by
  constructor
  · intro h
    simp [ReadMessages, readMessagesWithAckLevel, hstore, hclient, h]
  · intro h
    have hlen : 0 < resp.tasks.length := List.length_pos.mpr h
    cases hhyd : client.getDLQReplicationMessages (resp.tasks.map toReplicationTaskInfo) with
    | error e =>
      simp [ReadMessages, readMessagesWithAckLevel, hstore, hclient, hlen, hhyd,
        Event.isHydrate]
    | ok hy =>
      simp [ReadMessages, readMessagesWithAckLevel, hstore, hclient, hlen, hhyd,
        Event.isHydrate]

theorem read_hydrates_iff_page_nonempty_witness :
    (ReadMessages westHandler "west" 9 10 []).snd.filter Event.isHydrate
      = [Event.hydrate (westResp.tasks.map toReplicationTaskInfo)] :=
  (read_hydrates_iff_page_nonempty westHandler "west" 9 10 [] westResp westClient
    rfl rfl).2 (by decide)

/-- Claim C5: when the remote hydration call fails, the read phase returns
the hydration error — in this embedding the `Except.error` result carries
no task list, no entry list and no token, i.e. the already-read page is
discarded — and `MergeMessages` propagates the same error with no executor
invocation and no purge in its trace. -/
theorem hydration_failure_discards_page (r : DLQHandlerImpl) (c : String)
    (l p : Int) (tok : PageToken) (texec : TaskExecutor)
    (resp : GetReplicationTasksFromDLQResponse) (client : RemoteAdminClient) (e : Err)
    (hexec : r.taskExecutors.lookup c = some texec)
    (hstore : r.shard.getReplicationTasksFromDLQ (dlqReadRequest c l p tok) = .ok resp)
    (hne : resp.tasks ≠ [])
    (hclient : r.shard.remoteAdminClient c = some client)
    (hhyd : client.getDLQReplicationMessages (resp.tasks.map toReplicationTaskInfo)
      = .error e) :
    (ReadMessages r c l p tok).fst = .error e ∧
    MergeMessages r c l p tok
      = (.error e,
         [Event.storeRead (dlqReadRequest c l p tok),
          Event.hydrate (resp.tasks.map toReplicationTaskInfo)]) := by
  have hlen : 0 < resp.tasks.length := List.length_pos.mpr hne
  constructor
  · simp [ReadMessages, readMessagesWithAckLevel, hstore, hclient, hlen, hhyd]
  · simp [MergeMessages, readMessagesWithAckLevel, hexec, hstore, hclient, hlen, hhyd]

theorem hydration_failure_discards_page_witness :
    (ReadMessages failingHydrationHandler "west" 9 10 []).fst = .error (.hydration 7) ∧
    MergeMessages failingHydrationHandler "west" 9 10 []
      = (.error (.hydration 7),
         [Event.storeRead (dlqReadRequest "west" 9 10 []),
          Event.hydrate (westResp.tasks.map toReplicationTaskInfo)]) :=
  hydration_failure_discards_page failingHydrationHandler "west" 9 10 [] okExecutor
    westResp failingClient (.hydration 7) rfl rfl (by decide) rfl rfl

/-- Claim C1: when the read-and-hydrate step succeeds and every executor
invocation succeeds, `MergeMessages` issues exactly one range purge, whose
inclusive upper bound is the maximum task id across all lightweight
entries of the page (matched and unmatched alike); the purge is the last
event, after the whole iteration loop; and the executor calls are exactly
one forced call per hydration-matched entry, in page order. -/
theorem merge_purges_through_page_max (r : DLQHandlerImpl) (c : String)
    (l p : Int) (tok : PageToken) (texec : TaskExecutor)
    (tasks : List ReplicationTask) (raws : List ReplicationTaskInfo)
    (token : PageToken)
    (hexec : r.taskExecutors.lookup c = some texec)
    (hread : (readMessagesWithAckLevel r c l p tok).fst = .ok (tasks, raws, token))
    (hdist : tasks.Pairwise (fun a b => a.sourceTaskID ≠ b.sourceTaskID))
    (hok : ∀ raw ∈ raws, ∀ t, hydratedTaskFor tasks raw.taskID = some t →
      isOkE (texec.execute t true) = true)
    (hgt : ∀ raw ∈ raws, defaultBeginningMessageID < raw.taskID)
    (hne : raws ≠ []) :
    ∃ b, b ∈ raws.map (fun raw => raw.taskID) ∧
      (∀ raw ∈ raws, raw.taskID ≤ b) ∧
      (MergeMessages r c l p tok).snd.filter Event.isRangeDelete
        = [Event.rangeDelete (mergeDeleteRequest c b)] ∧
      (MergeMessages r c l p tok).snd.getLast?
        = some (Event.rangeDelete (mergeDeleteRequest c b)) ∧
      (MergeMessages r c l p tok).snd.filter Event.isExec
        = raws.filterMap (execEventFor (hydratedTaskFor tasks) c) := by
  have hmap : buildTaskMap tasks = hydratedTaskFor tasks :=
    funext fun id => buildTaskMap_eq_find tasks id hdist
  have hok' : ∀ raw ∈ raws, ∀ t, buildTaskMap tasks raw.taskID = some t →
      isOkE (texec.execute t true) = true := by
    rw [hmap]; exact hok
  have hloop := mergeLoop_ok texec c (buildTaskMap tasks) raws
    defaultBeginningMessageID hok'
  have hmm := mergeMessages_loop_ok r c l p tok texec tasks raws token
    (raws.foldl maxStep defaultBeginningMessageID)
    (raws.filterMap (execEventFor (buildTaskMap tasks) c)) hexec hread hloop
  rw [hmap] at hmm
  obtain ⟨hacc, hub, hmem⟩ := foldl_maxStep_spec raws defaultBeginningMessageID
  have hre := (read_trace_events r c l p tok).1
  have hrd := (read_trace_events r c l p tok).2
  have hloopRD : (raws.filterMap (execEventFor (hydratedTaskFor tasks) c)).filter
      Event.isRangeDelete = [] := by
    rw [List.filter_eq_nil_iff]
    intro ev hev
    obtain ⟨raw, hraw, t, hm, rfl⟩ := mem_filterMap_execEventFor _ _ _ _ hev
    simp [Event.isRangeDelete]
  have hloopEx : (raws.filterMap (execEventFor (hydratedTaskFor tasks) c)).filter
      Event.isExec = raws.filterMap (execEventFor (hydratedTaskFor tasks) c) := by
    rw [List.filter_eq_self]
    intro ev hev
    obtain ⟨raw, hraw, t, hm, rfl⟩ := mem_filterMap_execEventFor _ _ _ _ hev
    rfl
  refine ⟨raws.foldl maxStep defaultBeginningMessageID, ?_, hub, ?_, ?_, ?_⟩
  · rcases hmem with hmem | ⟨raw, hraw, hmem⟩
    · exfalso
      obtain ⟨raw0, hraw0⟩ : ∃ raw0, raw0 ∈ raws := by
        cases raws with
        | nil => exact absurd rfl hne
        | cons a as => exact ⟨a, List.mem_cons_self a as⟩
      have h1 := hgt raw0 hraw0
      have h2 := hub raw0 hraw0
      rw [hmem] at h2
      exact absurd (lt_of_lt_of_le h1 h2) (lt_irrefl _)
    · exact List.mem_map.mpr ⟨raw, hraw, hmem.symm⟩
  · simp [hmm, List.filter_append, hrd, hloopRD, Event.isRangeDelete]
  · rw [hmm]
    exact List.getLast?_concat _
  · simp [hmm, List.filter_append, hre, hloopEx, Event.isExec]

theorem merge_purges_through_page_max_witness :
    ∃ b, b ∈ (List.map toReplicationTaskInfo westResp.tasks).map (fun raw => raw.taskID) ∧
      (∀ raw ∈ List.map toReplicationTaskInfo westResp.tasks, raw.taskID ≤ b) ∧
      (MergeMessages westHandler "west" 9 10 []).snd.filter Event.isRangeDelete
        = [Event.rangeDelete (mergeDeleteRequest "west" b)] ∧
      (MergeMessages westHandler "west" 9 10 []).snd.getLast?
        = some (Event.rangeDelete (mergeDeleteRequest "west" b)) ∧
      (MergeMessages westHandler "west" 9 10 []).snd.filter Event.isExec
        = (List.map toReplicationTaskInfo westResp.tasks).filterMap
            (execEventFor (hydratedTaskFor [sampleTask 5, sampleTask 9]) "west") :=
  merge_purges_through_page_max westHandler "west" 9 10 [] okExecutor
    [sampleTask 5, sampleTask 9] (List.map toReplicationTaskInfo westResp.tasks) [1]
    rfl rfl (by decide) (fun _ _ _ _ => rfl) (by decide) (by decide)

/-- Claim C2: if the executor fails on entry `rawk` of the page after all
matched entries before it executed successfully, `MergeMessages` returns
the executor's error, issues no range delete, its executor calls are
exactly those for the matched earlier entries followed by the failing one,
and every matched entry with a smaller task id (the page being in
ascending task-id order) was indeed already executed. -/
theorem merge_executor_failure_aborts_without_purge (r : DLQHandlerImpl)
    (c : String) (l p : Int) (tok : PageToken) (texec : TaskExecutor)
    (tasks : List ReplicationTask) (pre : List ReplicationTaskInfo)
    (rawk : ReplicationTaskInfo) (post : List ReplicationTaskInfo)
    (token : PageToken) (tk : ReplicationTask) (e : Err)
    (hexec : r.taskExecutors.lookup c = some texec)
    (hread : (readMessagesWithAckLevel r c l p tok).fst
      = .ok (tasks, pre ++ rawk :: post, token))
    (hdist : tasks.Pairwise (fun a b => a.sourceTaskID ≠ b.sourceTaskID))
    (hsort : (pre ++ rawk :: post).Pairwise (fun a b => a.taskID < b.taskID))
    (hk : hydratedTaskFor tasks rawk.taskID = some tk)
    (he : texec.execute tk true = .error e)
    (hpre : ∀ raw ∈ pre, ∀ t, hydratedTaskFor tasks raw.taskID = some t →
      isOkE (texec.execute t true) = true) :
    (MergeMessages r c l p tok).fst = .error e ∧
    (MergeMessages r c l p tok).snd.filter Event.isRangeDelete = [] ∧
    (MergeMessages r c l p tok).snd.filter Event.isExec
      = pre.filterMap (execEventFor (hydratedTaskFor tasks) c)
        ++ [Event.execute c tk true] ∧
    (∀ raw ∈ pre ++ rawk :: post, raw.taskID < rawk.taskID →
      ∀ t, hydratedTaskFor tasks raw.taskID = some t →
        Event.execute c t true ∈ (MergeMessages r c l p tok).snd) := by
  have hmap : buildTaskMap tasks = hydratedTaskFor tasks :=
    funext fun id => buildTaskMap_eq_find tasks id hdist
  have hk' : buildTaskMap tasks rawk.taskID = some tk := by rw [hmap]; exact hk
  have hpre' : ∀ raw ∈ pre, ∀ t, buildTaskMap tasks raw.taskID = some t →
      isOkE (texec.execute t true) = true := by
    rw [hmap]; exact hpre
  have hloop := mergeLoop_err texec c (buildTaskMap tasks) pre rawk post
    defaultBeginningMessageID tk e hpre' hk' he
  have hmm := mergeMessages_loop_err r c l p tok texec tasks (pre ++ rawk :: post)
    token e (pre.filterMap (execEventFor (buildTaskMap tasks) c)
      ++ [Event.execute c tk true]) hexec hread hloop
  rw [hmap] at hmm
  have hre := (read_trace_events r c l p tok).1
  have hrd := (read_trace_events r c l p tok).2
  have hpreRD : (pre.filterMap (execEventFor (hydratedTaskFor tasks) c)).filter
      Event.isRangeDelete = [] := by
    rw [List.filter_eq_nil_iff]
    intro ev hev
    obtain ⟨raw, hraw, t, hm, rfl⟩ := mem_filterMap_execEventFor _ _ _ _ hev
    simp [Event.isRangeDelete]
  have hpreEx : (pre.filterMap (execEventFor (hydratedTaskFor tasks) c)).filter
      Event.isExec = pre.filterMap (execEventFor (hydratedTaskFor tasks) c) := by
    rw [List.filter_eq_self]
    intro ev hev
    obtain ⟨raw, hraw, t, hm, rfl⟩ := mem_filterMap_execEventFor _ _ _ _ hev
    rfl
  refine ⟨by rw [hmm], ?_, ?_, ?_⟩
  · simp [hmm, List.filter_append, hrd, hpreRD, Event.isRangeDelete]
  · simp [hmm, List.filter_append, hre, hpreEx, Event.isExec]
  · intro raw hraw hlt t ht
    have hp : raw ∈ pre := by
      rcases List.mem_append.mp hraw with hp | hq
      · exact hp
      · exfalso
        rcases List.mem_cons.mp hq with rfl | hpost
        · exact lt_irrefl _ hlt
        · have hcons := (List.pairwise_append.mp hsort).2.1
          have hfwd := (List.pairwise_cons.mp hcons).1 raw hpost
          exact lt_asymm hlt hfwd
    have hevmem : Event.execute c t true
        ∈ pre.filterMap (execEventFor (hydratedTaskFor tasks) c) := by
      refine List.mem_filterMap.mpr ⟨raw, hp, ?_⟩
      unfold execEventFor
      rw [ht]
      rfl
    rw [hmm]
    exact List.mem_append.mpr (Or.inr (List.mem_append.mpr (Or.inl hevmem)))

theorem merge_executor_failure_aborts_without_purge_witness :
    (MergeMessages westHandlerFailing "west" 9 10 []).fst = .error (.execution 1) ∧
    (MergeMessages westHandlerFailing "west" 9 10 []).snd.filter Event.isRangeDelete
      = [] ∧
    (MergeMessages westHandlerFailing "west" 9 10 []).snd.filter Event.isExec
      = [westInfo 5, westInfo 7].filterMap
          (execEventFor (hydratedTaskFor [sampleTask 5, sampleTask 9]) "west")
        ++ [Event.execute "west" (sampleTask 9) true] := by
  have h := merge_executor_failure_aborts_without_purge westHandlerFailing "west" 9 10 []
    failOn9Executor [sampleTask 5, sampleTask 9] [westInfo 5, westInfo 7] (westInfo 9) []
    [1] (sampleTask 9) (.execution 1) rfl rfl (by decide) (by decide) rfl rfl
    (by
      intro raw hraw t ht
      have hsrc : t.sourceTaskID = raw.taskID := by
        have hp := List.find?_some ht
        simpa using hp
      rcases List.mem_cons.mp hraw with rfl | hraw2
      · simp [failOn9Executor, isOkE, hsrc, westInfo]
      · rcases List.mem_cons.mp hraw2 with rfl | hraw3
        · simp [failOn9Executor, isOkE, hsrc, westInfo]
        · exact absurd hraw3 (List.not_mem_nil raw))
  exact ⟨h.1, h.2.1, h.2.2.1⟩

/-- Whatever the outcome of the replay loop and final purge, the merge
trace is the read events, then the executor calls of some prefix of the
page, then a tail holding no executor call. -/
theorem mergeMessages_trace_split (r : DLQHandlerImpl) (c : String) (l p : Int)
    (tok : PageToken) (texec : TaskExecutor) (tasks : List ReplicationTask)
    (raws : List ReplicationTaskInfo) (token : PageToken)
    (hexec : r.taskExecutors.lookup c = some texec)
    (hread : (readMessagesWithAckLevel r c l p tok).fst = .ok (tasks, raws, token)) :
    ∃ Q R tail, raws = Q ++ R ∧
      (MergeMessages r c l p tok).snd
        = (readMessagesWithAckLevel r c l p tok).snd
          ++ Q.filterMap (execEventFor (buildTaskMap tasks) c) ++ tail ∧
      tail.filter Event.isExec = [] := by
  obtain ⟨Q, R, hQR, htr⟩ := mergeLoop_trace_shape texec c (buildTaskMap tasks) raws
    defaultBeginningMessageID
  have hpair : mergeLoop texec c (buildTaskMap tasks) raws defaultBeginningMessageID
      = ((mergeLoop texec c (buildTaskMap tasks) raws defaultBeginningMessageID).fst,
         Q.filterMap (execEventFor (buildTaskMap tasks) c)) := by
    rw [← htr]
  cases hfst : (mergeLoop texec c (buildTaskMap tasks) raws
      defaultBeginningMessageID).fst with
  | error e =>
    rw [hfst] at hpair
    refine ⟨Q, R, [], hQR, ?_, rfl⟩
    rw [mergeMessages_loop_err r c l p tok texec tasks raws token e _ hexec hread hpair]
    simp
  | ok lastID =>
    rw [hfst] at hpair
    refine ⟨Q, R, [Event.rangeDelete (mergeDeleteRequest c lastID)], hQR, ?_, rfl⟩
    rw [mergeMessages_loop_ok r c l p tok texec tasks raws token lastID _ hexec hread
      hpair]

/-- `execSourceIs` only holds of executor-call events. -/
theorem execSourceIs_isExec (id : Int) (ev : Event)
    (h : execSourceIs id ev = true) : Event.isExec ev = true := by
  cases ev <;> simp_all [execSourceIs, Event.isExec]

/-- Among the executor calls generated from a page with pairwise-distinct
task ids, at most one is for any given source task id. -/
theorem filterMap_execEventFor_count (tasks : List ReplicationTask) (c : String)
    (id : Int) (Q : List ReplicationTaskInfo)
    (hdQ : Q.Pairwise (fun a b => a.taskID ≠ b.taskID)) :
    ((Q.filterMap (execEventFor (buildTaskMap tasks) c)).filter
      (execSourceIs id)).length ≤ 1 := by
  induction Q with
  | nil => simp
  | cons raw rest ih =>
    rcases List.pairwise_cons.mp hdQ with ⟨hhead, htailP⟩
    cases hm : buildTaskMap tasks raw.taskID with
    | none =>
      simp only [List.filterMap_cons, execEventFor, hm, Option.map_none']
      exact ih htailP
    | some t =>
      have hsrc := buildTaskMap_source tasks raw.taskID t hm
      simp only [List.filterMap_cons, execEventFor, hm, Option.map_some',
        List.filter_cons]
      by_cases hid : raw.taskID = id
      · have hyes : execSourceIs id (Event.execute c t true) = true := by
          simp [execSourceIs, hsrc, hid]
        have hrest0 : (rest.filterMap (execEventFor (buildTaskMap tasks) c)).filter
            (execSourceIs id) = [] := by
          rw [List.filter_eq_nil_iff]
          intro ev hev
          obtain ⟨raw', hraw', t', hm', rfl⟩ := mem_filterMap_execEventFor _ _ _ _ hev
          have hsrc' := buildTaskMap_source tasks raw'.taskID t' hm'
          have hne := hhead raw' hraw'
          simp only [execSourceIs, hsrc', beq_iff_eq]
          rw [← hid]
          exact fun hc => absurd hc.symm hne
        rw [hyes, hrest0]
        simp
      · have hno : execSourceIs id (Event.execute c t true) = false := by
          simp only [execSourceIs, hsrc]
          exact beq_eq_false_iff_ne.mpr hid
        rw [hno]
        simp only [if_neg Bool.false_ne_true]
        exact ih htailP

/-- Claim C10: during any `MergeMessages` call whose read phase produced
the page `raws`, every task handed to the executor has a `SourceTaskID`
matching some lightweight entry of the page, and (with distinct task ids
in the page) at most one executor call carries any given source task
id. -/
theorem merge_never_executes_unmatched (r : DLQHandlerImpl) (c : String)
    (l p : Int) (tok : PageToken) (texec : TaskExecutor)
    (tasks : List ReplicationTask) (raws : List ReplicationTaskInfo)
    (token : PageToken)
    (hexec : r.taskExecutors.lookup c = some texec)
    (hread : (readMessagesWithAckLevel r c l p tok).fst = .ok (tasks, raws, token))
    (hdraw : raws.Pairwise (fun a b => a.taskID ≠ b.taskID)) :
    (∀ cc t f, Event.execute cc t f ∈ (MergeMessages r c l p tok).snd →
      t.sourceTaskID ∈ raws.map (fun raw => raw.taskID)) ∧
    (∀ id : Int,
      ((MergeMessages r c l p tok).snd.filter (execSourceIs id)).length ≤ 1) := by
  obtain ⟨Q, R, tail, hQR, hsnd, htail⟩ := mergeMessages_trace_split r c l p tok texec
    tasks raws token hexec hread
  have hre := (read_trace_events r c l p tok).1
  have hdQ : Q.Pairwise (fun a b => a.taskID ≠ b.taskID) := by
    rw [hQR] at hdraw
    exact (List.pairwise_append.mp hdraw).1
  constructor
  · intro cc t f hmem
    rw [hsnd] at hmem
    rcases List.mem_append.mp hmem with hmem | htl
    · rcases List.mem_append.mp hmem with hrd | hq
      · exact absurd rfl (List.filter_eq_nil_iff.mp hre _ hrd)
      · obtain ⟨raw, hraw, t', hm, heq⟩ := mem_filterMap_execEventFor _ _ _ _ hq
        injection heq with h1 h2 h3
        subst h2
        have hsrc := buildTaskMap_source tasks raw.taskID _ hm
        refine List.mem_map.mpr ⟨raw, ?_, hsrc.symm⟩
        rw [hQR]
        exact List.mem_append.mpr (Or.inl hraw)
    · exact absurd rfl (List.filter_eq_nil_iff.mp htail _ htl)
  · intro id
    rw [hsnd, List.filter_append, List.filter_append]
    have h1 : (readMessagesWithAckLevel r c l p tok).snd.filter (execSourceIs id)
        = [] := by
      rw [List.filter_eq_nil_iff]
      intro a ha hx
      exact List.filter_eq_nil_iff.mp hre a ha (execSourceIs_isExec id a hx)
    have h3 : tail.filter (execSourceIs id) = [] := by
      rw [List.filter_eq_nil_iff]
      intro a ha hx
      exact List.filter_eq_nil_iff.mp htail a ha (execSourceIs_isExec id a hx)
    rw [h1, h3]
    simpa using filterMap_execEventFor_count tasks c id Q hdQ

theorem merge_never_executes_unmatched_witness :
    ((MergeMessages westHandler "west" 9 10 []).snd.filter (execSourceIs 7)).length
      ≤ 1 :=
  (merge_never_executes_unmatched westHandler "west" 9 10 [] okExecutor
    [sampleTask 5, sampleTask 9] (List.map toReplicationTaskInfo westResp.tasks) [1]
    rfl rfl (by decide)).2 7

end DLQ
